import Mathlib

/-!
Verification of the deduplication core of the ticketAI repository
(`src/deduplication/{schema,matchers,service}.py`).

Modelling conventions, used consistently below:
* Python `float` values (timestamps in seconds, the metadata window, the
  similarity thresholds, embedding components, stored similarity scores) are
  modelled as exact rationals `ℚ`; decimal literals such as `0.92` are the
  rationals they denote.
* `cosine_similarity` genuinely needs square roots, so it returns a real
  number `ℝ`; comparisons against it therefore live in `ℝ`.
* Python `datetime` values are modelled by their epoch offset in seconds
  (a rational), so `(a - b).total_seconds()` is plain subtraction.
* `None`-able Python values are `Option`; Python truthiness of an optional
  string is "present and non-empty", of an optional list "present and
  non-empty".
* Python `round(x, 4)` is rounding to the nearest multiple of `1/10000`
  (Python breaks exact ties to even, Mathlib `round` breaks them upward; no
  statement below depends on an exact-tie input).
-/

set_option maxHeartbeats 1000000

namespace TicketAI

/-! ### Python string primitives

`str.strip`, `str.lower`, and `re.split(r"\s+", ·)` as used by
`matchers._normalize_error_message` and the account comparison. -/

/-- ASCII whitespace recognised by Python `str.strip` and `\s`. -/
def isPySpace (c : Char) : Bool :=
  c = ' ' || c = '\t' || c = '\n' || c = '\r' || c = '\x0b' || c = '\x0c'

/-- Python `str.strip()`: drop leading and trailing whitespace. -/
def pyStrip (s : String) : String :=
  ⟨((s.data.dropWhile isPySpace).reverse.dropWhile isPySpace).reverse⟩

/-- Python `str.lower()` (ASCII case folding suffices for the claims). -/
def pyLower (s : String) : String :=
  ⟨s.data.map Char.toLower⟩

/-- Helper for `pyWords`: `cur` holds the reversed characters of the word
currently being scanned. -/
def pyWordsAux (cur : List Char) : List Char → List (List Char)
  | [] => if cur = [] then [] else [cur.reverse]
  | c :: cs =>
    if isPySpace c then
      if cur = [] then pyWordsAux [] cs else cur.reverse :: pyWordsAux [] cs
    else pyWordsAux (c :: cur) cs

/-- Maximal whitespace-separated words of a character list.  On a string with
no leading whitespace this agrees with `re.split(r"\s+", ·)`. -/
def pyWords (l : List Char) : List (List Char) := pyWordsAux [] l

/-- `matchers._normalize_error_message`: `""` for a falsy message, otherwise
`" ".join(re.split(r"\s+", msg.strip().lower()))` — i.e. strip, lower-case and
collapse internal whitespace runs to single spaces (after `strip()` the
regex split yields exactly the whitespace-separated words). -/
def normalize_error_message : Option String → String
  | none => ""
  | some s =>
    if s = "" then ""
    else String.intercalate " " ((pyWords (pyLower (pyStrip s)).data).map fun w => (⟨w⟩ : String))

/-- `matchers._same_timeframe`: both timestamps present and within
`window_hours` hours of each other. -/
def same_timeframe (received_at candidate_at : Option ℚ) (window_hours : ℚ) : Bool :=
  match received_at, candidate_at with
  | some r, some c => decide (|r - c| ≤ window_hours * 3600)
  | _, _ => false

/-! ### Schema (`schema.py`) -/

/-- `schema.DuplicateMatchType`. -/
inductive DuplicateMatchType where
  | EXACT
  | LIKELY
  | KNOWN_INCIDENT
  deriving DecidableEq, Repr

/-- `schema.DeduplicationAction`. -/
inductive DeduplicationAction where
  | AUTO_MERGE
  | AGENT_REVIEW
  | LINK_NOTIFY
  | NONE
  deriving DecidableEq, Repr

/-- `schema.DuplicateMatch`. -/
structure DuplicateMatch where
  candidate_ticket_id : String
  match_type : DuplicateMatchType
  similarity_score : Option ℚ
  reason : String
  deriving DecidableEq, Repr

/-- `schema.ProcessedTicketView`. -/
structure ProcessedTicketView where
  ticket_id : String
  account_id : Option String
  error_message : Option String
  received_at : Option ℚ
  cleaned_text : String
  embedding : Option (List ℚ)
  deriving DecidableEq, Repr

/-- `schema.DeduplicationResult`. -/
structure DeduplicationResult where
  ticket_id : String
  action : DeduplicationAction
  «matches» : List DuplicateMatch
  linked_incident_id : Option String
  deriving DecidableEq, Repr

/-! ### Metadata matcher (`matchers.metadata_match`) -/

/-- `matchers.metadata_match`.  The keyword defaults of the source
(`same_account_required=True`, `same_error_required=True`,
`time_window_hours=1.0`) are passed explicitly by callers here.  The source's
early `return None`s become an if-chain; `not s` on an optional string is
"absent or empty". -/
def metadata_match (current_account_id current_error : Option String)
    (current_received_at : Option ℚ) (candidate : ProcessedTicketView)
    (same_account_required same_error_required : Bool)
    (time_window_hours : ℚ) : Option DuplicateMatch :=
  if same_account_required ∧
      (current_account_id.getD "" = "" ∨ candidate.account_id.getD "" = "") then none
  else if same_account_required ∧
      pyStrip (current_account_id.getD "") ≠ pyStrip (candidate.account_id.getD "") then none
  else if same_error_required ∧
      (normalize_error_message current_error = "" ∨
        normalize_error_message candidate.error_message = "") then none
  else if same_error_required ∧
      normalize_error_message current_error ≠ normalize_error_message candidate.error_message then
    none
  else if ¬ same_timeframe current_received_at candidate.received_at time_window_hours then none
  else
    some { candidate_ticket_id := candidate.ticket_id
           match_type := .EXACT
           similarity_score := some 1
           reason :=
             if same_error_required then "Same account, same error string, same timeframe"
             else "Same account, same timeframe" }

/-! ### Semantic matcher (`matchers.cosine_similarity`, `matchers.semantic_match`) -/

/-- `sum(x * y for x, y in zip(a, b))`. -/
def listDot (a b : List ℚ) : ℚ := (List.zipWith (fun x y => x * y) a b).sum

/-- `sum(x * x for x in a)`. -/
def listSumSq (a : List ℚ) : ℚ := (a.map fun x => x * x).sum

open Classical in
/-- `matchers.cosine_similarity`: `0.0` for empty or length-mismatched inputs
or a zero norm, else the dot product over the product of Euclidean norms. -/
noncomputable def cosine_similarity (a b : List ℚ) : ℝ :=
  if a = [] ∨ b = [] ∨ a.length ≠ b.length then 0
  else
    let dot : ℚ := listDot a b
    let na : ℝ := Real.sqrt ((listSumSq a : ℚ) : ℝ)
    let nb : ℝ := Real.sqrt ((listSumSq b : ℚ) : ℝ)
    if na = 0 ∨ nb = 0 then 0
    else (dot : ℝ) / (na * nb)

/-- Python `round(x, 4)`: nearest multiple of `1/10000` (see header note on
tie-breaking). -/
noncomputable def round4 (x : ℝ) : ℚ := ((round (x * 10000) : ℤ) : ℚ) / 10000

/-- Stand-in for Python's two-decimal float formatting `f"{x:.2f}"` inside the
reason strings; no claim inspects these digits. -/
noncomputable def pyFormat2 (x : ℝ) : String := toString (round (x * 100) : ℤ)

open Classical in
/-- `matchers.semantic_match`.  Threshold defaults (`0.92` / `0.85`) are passed
explicitly by callers.  A missing embedding is recomputed from the cleaned
text only when an `embedding_fn` is supplied and the text is non-empty, as in
the source's truthiness checks. -/
noncomputable def semantic_match (current_embedding : Option (List ℚ)) (current_text : String)
    (candidate : ProcessedTicketView) (embedding_fn : Option (String → List ℚ))
    (exact_threshold likely_threshold : ℚ) : Option DuplicateMatch :=
  let cand_emb : Option (List ℚ) :=
    match candidate.embedding, embedding_fn with
    | none, some fn => if candidate.cleaned_text ≠ "" then some (fn candidate.cleaned_text) else none
    | ce, _ => ce
  let cur_emb : Option (List ℚ) :=
    match current_embedding, embedding_fn with
    | none, some fn => if current_text ≠ "" then some (fn current_text) else none
    | ce, _ => ce
  match cur_emb, cand_emb with
  | some a, some b =>
    if a = [] ∨ b = [] then none
    else if a.length ≠ b.length then none
    else
      let score : ℝ := cosine_similarity a b
      if (exact_threshold : ℝ) ≤ score then
        some { candidate_ticket_id := candidate.ticket_id
               match_type := .EXACT
               similarity_score := some (round4 score)
               reason := "Semantic similarity " ++ pyFormat2 score ++ " >= " ++
                 toString exact_threshold }
      else if (likely_threshold : ℝ) ≤ score then
        some { candidate_ticket_id := candidate.ticket_id
               match_type := .LIKELY
               similarity_score := some (round4 score)
               reason := "Semantic similarity " ++ pyFormat2 score ++ " in [" ++
                 toString likely_threshold ++ ", " ++ toString exact_threshold ++ ")" }
      else none
  | _, _ => none

/-! ### Incident correlator (`matchers.incident_match`) -/

/-- `matchers.incident_match`: consult `link_to_incident` first, else the head
of `get_active_incident_ids()`; a falsy (absent or empty) identifier means no
incident. -/
def incident_match (ticket_id : String) (account_id product : Option String)
    (get_active_incident_ids : Option (Unit → List String))
    (link_to_incident : Option (String → Option String → Option String → Option String)) :
    Option DuplicateMatch × Option String :=
  let incident_id : Option String :=
    match link_to_incident with
    | some link => link ticket_id account_id product
    | none =>
      match get_active_incident_ids with
      | some get =>
        match get () with
        | [] => none
        | first :: _ => some first
      | none => none
  match incident_id with
  | none => (none, none)
  | some iid =>
    if iid = "" then (none, none)
    else
      (some { candidate_ticket_id := iid
              match_type := .KNOWN_INCIDENT
              similarity_score := none
              reason := "Linked to active incident" },
       some iid)

/-! ### Orchestrator (`service.DeduplicationService`) -/

/-- Constructor state of `service.DeduplicationService` (defaults in the
source: no collaborators, thresholds `0.92` / `0.85`, window `1.0`). -/
structure DeduplicationService where
  embedding_fn : Option (String → List ℚ)
  semantic_exact_threshold : ℚ
  semantic_likely_threshold : ℚ
  metadata_time_window_hours : ℚ
  get_active_incident_ids : Option (Unit → List String)
  link_to_incident : Option (String → Option String → Option String → Option String)

/-- `service._already_matched`. -/
def already_matched (candidate_id : String) (ms : List DuplicateMatch) : Bool :=
  ms.any fun m => m.candidate_ticket_id == candidate_id

/-- One candidate loop of `DeduplicationService.check` (both the metadata and
the semantic pass have this exact shape): skip the current ticket's own id,
collect non-null matcher results whose candidate id is not already present. -/
def dedupPass (ticket_id : String) (f : ProcessedTicketView → Option DuplicateMatch) :
    List ProcessedTicketView → List DuplicateMatch → List DuplicateMatch
  | [], acc => acc
  | cand :: rest, acc =>
    if cand.ticket_id = ticket_id then dedupPass ticket_id f rest acc
    else
      match f cand with
      | none => dedupPass ticket_id f rest acc
      | some m =>
        if already_matched m.candidate_ticket_id acc then dedupPass ticket_id f rest acc
        else dedupPass ticket_id f rest (acc ++ [m])

/-- Python truthiness of the optional current embedding. -/
def embTruthy : Option (List ℚ) → Bool
  | none => false
  | some l => decide (l ≠ [])

/-- Steps 1 and 2 of `DeduplicationService.check`: the metadata pass over all
candidates followed by the semantic pass, the latter only when the candidate
list is truthy and either a current embedding or an embedding provider is
available (`if candidates and (current_embedding or self._embedding_fn)`). -/
noncomputable def checkPassMatches (svc : DeduplicationService) (ticket_id : String)
    (account_id error_message : Option String) (received_at : Option ℚ)
    (cleaned_text : String) (current_embedding : Option (List ℚ))
    (candidates : List ProcessedTicketView) : List DuplicateMatch :=
  let matches1 := dedupPass ticket_id
    (fun cand => metadata_match account_id error_message received_at cand true true
      svc.metadata_time_window_hours) candidates []
  if candidates ≠ [] ∧ (embTruthy current_embedding ∨ svc.embedding_fn.isSome) then
    dedupPass ticket_id
      (fun cand => semantic_match current_embedding cleaned_text cand svc.embedding_fn
        svc.semantic_exact_threshold svc.semantic_likely_threshold) candidates matches1
  else matches1

/-- `service.DeduplicationService.check`: metadata pass, gated semantic pass,
one incident correlation, then action resolution by fixed priority over the
accumulated matches. -/
noncomputable def DeduplicationService.check (svc : DeduplicationService) (ticket_id : String)
    (account_id error_message : Option String) (received_at : Option ℚ)
    (cleaned_text : String) (current_embedding : Option (List ℚ))
    (candidates : List ProcessedTicketView) (product : Option String) : DeduplicationResult :=
  let matches2 := checkPassMatches svc ticket_id account_id error_message received_at
    cleaned_text current_embedding candidates
  let inc := incident_match ticket_id account_id product svc.get_active_incident_ids
    svc.link_to_incident
  let matches3 := match inc.1 with | some m => matches2 ++ [m] | none => matches2
  let linked_incident_id : Option String := match inc.1 with | some _ => inc.2 | none => none
  let action :=
    if matches3.any fun m => m.match_type == DuplicateMatchType.KNOWN_INCIDENT then
      DeduplicationAction.LINK_NOTIFY
    else if matches3.any fun m => m.match_type == DuplicateMatchType.EXACT then
      DeduplicationAction.AUTO_MERGE
    else if matches3.any fun m => m.match_type == DuplicateMatchType.LIKELY then
      DeduplicationAction.AGENT_REVIEW
    else DeduplicationAction.NONE
  { ticket_id := ticket_id, action := action, «matches» := matches3,
    linked_incident_id := linked_incident_id }

/-! ### Arithmetic facts about the similarity computation -/

theorem listSumSq_nonneg (a : List ℚ) : 0 ≤ listSumSq a := by
  induction a with
  | nil => simp [listSumSq]
  | cons x xs ih =>
    simp only [listSumSq, List.map_cons, List.sum_cons]
    have hx := mul_self_nonneg x
    simp only [listSumSq] at ih
    linarith

theorem listDot_self (a : List ℚ) : listDot a a = listSumSq a := by
  induction a with
  | nil => simp [listDot, listSumSq]
  | cons x xs ih =>
    simp only [listDot, listSumSq, List.zipWith_cons_cons, List.map_cons, List.sum_cons] at *
    linarith

/-- Discrete Cauchy-Schwarz for the truncating dot product of two rational
lists. -/
theorem listDot_sq_le (a : List ℚ) : ∀ b : List ℚ,
    (listDot a b) ^ 2 ≤ listSumSq a * listSumSq b := by
  induction a with
  | nil =>
    intro b
    simp [listDot, listSumSq]
  | cons x xs ih =>
    intro b
    cases b with
    | nil =>
      simp [listDot, listSumSq]
    | cons y ys =>
      have h := ih ys
      have ha := listSumSq_nonneg xs
      have hb := listSumSq_nonneg ys
      have e1 : listDot (x :: xs) (y :: ys) = x * y + listDot xs ys := by
        simp [listDot]
      have e2 : listSumSq (x :: xs) = x * x + listSumSq xs := by
        simp [listSumSq]
      have e3 : listSumSq (y :: ys) = y * y + listSumSq ys := by
        simp [listSumSq]
      rw [e1, e2, e3]
      rcases eq_or_lt_of_le hb with hb0 | hbpos
      · have hd : listDot xs ys = 0 := by
          have h0 : (listDot xs ys) ^ 2 ≤ 0 := by
            calc (listDot xs ys) ^ 2 ≤ listSumSq xs * listSumSq ys := h
              _ = 0 := by rw [← hb0]; ring
          have h1 : (0:ℚ) ≤ (listDot xs ys) ^ 2 := sq_nonneg _
          have h2 : (listDot xs ys) ^ 2 = 0 := le_antisymm h0 h1
          exact (pow_eq_zero_iff two_ne_zero).mp h2
        rw [hd, ← hb0]
        nlinarith [mul_nonneg ha (mul_self_nonneg y)]
      · have key : listSumSq ys * ((x * x + listSumSq xs) * (y * y + listSumSq ys) -
            (x * y + listDot xs ys) ^ 2) =
            (x * listSumSq ys - y * listDot xs ys) ^ 2 +
              (y * y) * (listSumSq xs * listSumSq ys - (listDot xs ys) ^ 2) +
              listSumSq ys * (listSumSq xs * listSumSq ys - (listDot xs ys) ^ 2) := by
          ring
        have hrhs : (0:ℚ) ≤
            (x * listSumSq ys - y * listDot xs ys) ^ 2 +
              (y * y) * (listSumSq xs * listSumSq ys - (listDot xs ys) ^ 2) +
              listSumSq ys * (listSumSq xs * listSumSq ys - (listDot xs ys) ^ 2) := by
          have t1 := sq_nonneg (x * listSumSq ys - y * listDot xs ys)
          have t2 : (0:ℚ) ≤ (y * y) * (listSumSq xs * listSumSq ys - (listDot xs ys) ^ 2) :=
            mul_nonneg (mul_self_nonneg y) (sub_nonneg.mpr h)
          have t3 : (0:ℚ) ≤ listSumSq ys * (listSumSq xs * listSumSq ys - (listDot xs ys) ^ 2) :=
            mul_nonneg hb (sub_nonneg.mpr h)
          linarith
        have hprod : (0:ℚ) ≤ listSumSq ys * ((x * x + listSumSq xs) * (y * y + listSumSq ys) -
            (x * y + listDot xs ys) ^ 2) := key ▸ hrhs
        nlinarith [hprod, hbpos]

/-- The code's cosine similarity never exceeds `1`. -/
theorem cosine_similarity_le_one (a b : List ℚ) : cosine_similarity a b ≤ 1 := by
  unfold cosine_similarity
  split
  · norm_num
  · simp only
    split
    · norm_num
    · rename_i hg hz
      push_neg at hz
      obtain ⟨hna, hnb⟩ := hz
      have hsa : (0:ℝ) ≤ ((listSumSq a : ℚ) : ℝ) := by exact_mod_cast listSumSq_nonneg a
      have hsb : (0:ℝ) ≤ ((listSumSq b : ℚ) : ℝ) := by exact_mod_cast listSumSq_nonneg b
      have hpa : (0:ℝ) < Real.sqrt ((listSumSq a : ℚ) : ℝ) :=
        lt_of_le_of_ne (Real.sqrt_nonneg _) (Ne.symm hna)
      have hpb : (0:ℝ) < Real.sqrt ((listSumSq b : ℚ) : ℝ) :=
        lt_of_le_of_ne (Real.sqrt_nonneg _) (Ne.symm hnb)
      rw [div_le_one (by positivity)]
      have hcs : ((listDot a b : ℚ) : ℝ) ^ 2 ≤
          ((listSumSq a : ℚ) : ℝ) * ((listSumSq b : ℚ) : ℝ) := by
        exact_mod_cast listDot_sq_le a b
      have h1 : ((listDot a b : ℚ) : ℝ) ≤
          Real.sqrt (((listSumSq a : ℚ) : ℝ) * ((listSumSq b : ℚ) : ℝ)) := by
        have h2 : ((listDot a b : ℚ) : ℝ) ≤ |((listDot a b : ℚ) : ℝ)| := le_abs_self _
        have h3 : |((listDot a b : ℚ) : ℝ)| = Real.sqrt (((listDot a b : ℚ) : ℝ) ^ 2) :=
          (Real.sqrt_sq_eq_abs _).symm
        calc ((listDot a b : ℚ) : ℝ) ≤ |((listDot a b : ℚ) : ℝ)| := h2
          _ = Real.sqrt (((listDot a b : ℚ) : ℝ) ^ 2) := h3
          _ ≤ Real.sqrt (((listSumSq a : ℚ) : ℝ) * ((listSumSq b : ℚ) : ℝ)) :=
            Real.sqrt_le_sqrt hcs
      calc ((listDot a b : ℚ) : ℝ)
          ≤ Real.sqrt (((listSumSq a : ℚ) : ℝ) * ((listSumSq b : ℚ) : ℝ)) := h1
        _ = Real.sqrt ((listSumSq a : ℚ) : ℝ) * Real.sqrt ((listSumSq b : ℚ) : ℝ) :=
            Real.sqrt_mul hsa _

theorem round4_nonneg {x : ℝ} (hx : 0 ≤ x) : 0 ≤ round4 x := by
  unfold round4
  have h : (0:ℤ) ≤ round (x * 10000) := by
    rw [round_eq]
    exact Int.floor_nonneg.mpr (by nlinarith)
  have h' : (0:ℚ) ≤ ((round (x * 10000) : ℤ) : ℚ) := by exact_mod_cast h
  positivity

theorem round4_le_one {x : ℝ} (hx : x ≤ 1) : round4 x ≤ 1 := by
  unfold round4
  have h : round (x * 10000) ≤ 10000 := by
    rw [round_eq]
    have h1 : (⌊x * 10000 + 1 / 2⌋ : ℤ) ≤ ⌊(10000:ℝ) + 1 / 2⌋ :=
      Int.floor_le_floor (by nlinarith)
    have h2 : (⌊(10000:ℝ) + 1 / 2⌋ : ℤ) = 10000 := by
      rw [Int.floor_eq_iff]
      norm_num
    omega
  rw [div_le_one (by norm_num)]
  exact_mod_cast h

/-- Cosine similarity of a vector with itself is `1` when its norm is
non-zero. -/
theorem cosine_similarity_self {v : List ℚ} (hv : listSumSq v ≠ 0) :
    cosine_similarity v v = 1 := by
  have hvne : v ≠ [] := by
    rintro rfl
    simp [listSumSq] at hv
  have hpos : 0 < listSumSq v := lt_of_le_of_ne (listSumSq_nonneg v) (Ne.symm hv)
  have hposR : (0:ℝ) < ((listSumSq v : ℚ) : ℝ) := by exact_mod_cast hpos
  have hsq : Real.sqrt ((listSumSq v : ℚ) : ℝ) ≠ 0 :=
    Real.sqrt_ne_zero'.mpr hposR
  have h1 : ¬ (v = [] ∨ v = [] ∨ v.length ≠ v.length) := by simp [hvne]
  rw [cosine_similarity, if_neg h1]
  simp only
  rw [if_neg (by simp [hsq])]
  rw [listDot_self, Real.mul_self_sqrt hposR.le, div_self (ne_of_gt hposR)]

/-! ### Shape of the individual matcher results -/

/-- Any successful metadata match carries the candidate's id, kind `EXACT`,
score `1.0`, and the fixed reason string. -/
theorem metadata_match_eq_some {caid cerr : Option String} {rat : Option ℚ}
    {cand : ProcessedTicketView} {sar ser : Bool} {w : ℚ} {m : DuplicateMatch}
    (h : metadata_match caid cerr rat cand sar ser w = some m) :
    m = { candidate_ticket_id := cand.ticket_id
          match_type := .EXACT
          similarity_score := some 1
          reason :=
            if ser then "Same account, same error string, same timeframe"
            else "Same account, same timeframe" } := by
  unfold metadata_match at h
  split_ifs at h ⊢ <;> exact (Option.some.inj h).symm

/-- Any successful semantic match carries the candidate's id and the rounded
cosine similarity of a pair of (resolved) embeddings that cleared one of the
two thresholds. -/
theorem semantic_match_eq_some {ce : Option (List ℚ)} {ct : String}
    {cand : ProcessedTicketView} {fn : Option (String → List ℚ)} {te tl : ℚ}
    {m : DuplicateMatch} (h : semantic_match ce ct cand fn te tl = some m) :
    ∃ a b : List ℚ, m.candidate_ticket_id = cand.ticket_id ∧
      m.similarity_score = some (round4 (cosine_similarity a b)) ∧
      ((m.match_type = .EXACT ∧ (te : ℝ) ≤ cosine_similarity a b) ∨
        (m.match_type = .LIKELY ∧ (tl : ℝ) ≤ cosine_similarity a b)) := by
  simp only [semantic_match] at h
  split at h
  · rename_i a b ha hb
    split at h
    · exact Option.noConfusion h
    · split at h
      · exact Option.noConfusion h
      · split at h
        · cases Option.some.inj h
          rename_i h3
          exact ⟨a, b, rfl, rfl, Or.inl ⟨rfl, h3⟩⟩
        · split at h
          · cases Option.some.inj h
            rename_i h4
            exact ⟨a, b, rfl, rfl, Or.inr ⟨rfl, h4⟩⟩
          · exact Option.noConfusion h
  · exact Option.noConfusion h

/-- The incident correlator either reports nothing at all, or yields a
`KNOWN_INCIDENT` match without score together with exactly its incident id. -/
theorem incident_match_spec (tid : String) (acc prod : Option String)
    (g : Option (Unit → List String))
    (l : Option (String → Option String → Option String → Option String)) :
    incident_match tid acc prod g l = (none, none) ∨
    ∃ m : DuplicateMatch,
      incident_match tid acc prod g l = (some m, some m.candidate_ticket_id) ∧
      m.match_type = .KNOWN_INCIDENT ∧ m.similarity_score = none := by
  rcases l with _ | link
  · rcases g with _ | get
    · exact Or.inl rfl
    · rcases hga : get () with _ | ⟨first, rest⟩
      · exact Or.inl (by simp [incident_match, hga])
      · by_cases hi : first = ""
        · exact Or.inl (by simp [incident_match, hga, hi])
        · refine Or.inr ⟨DuplicateMatch.mk first .KNOWN_INCIDENT none
            "Linked to active incident", ?_, rfl, rfl⟩
          simp [incident_match, hga, hi]
  · rcases hl : link tid acc prod with _ | iid
    · exact Or.inl (by simp [incident_match, hl])
    · by_cases hi : iid = ""
      · exact Or.inl (by simp [incident_match, hl, hi])
      · refine Or.inr ⟨DuplicateMatch.mk iid .KNOWN_INCIDENT none
          "Linked to active incident", ?_, rfl, rfl⟩
        simp [incident_match, hl, hi]

/-! ### Invariants of the per-candidate accumulation loop -/

/-- Candidate ids present in a match list. -/
def matchIds (l : List DuplicateMatch) : List String :=
  l.map fun m => m.candidate_ticket_id

theorem already_matched_iff (cid : String) (acc : List DuplicateMatch) :
    already_matched cid acc = true ↔ cid ∈ matchIds acc := by
  simp only [already_matched, matchIds, List.any_eq_true, List.mem_map, beq_iff_eq]

theorem dedupPass_sub {tid : String} {f : ProcessedTicketView → Option DuplicateMatch} :
    ∀ (l : List ProcessedTicketView) (acc : List DuplicateMatch) (m : DuplicateMatch),
      m ∈ acc → m ∈ dedupPass tid f l acc := by
  intro l
  induction l with
  | nil => intro acc m hm; simpa [dedupPass] using hm
  | cons c rest ih =>
    intro acc m hm
    unfold dedupPass
    split
    · exact ih acc m hm
    · split
      · exact ih acc m hm
      · split
        · exact ih acc m hm
        · exact ih _ m (List.mem_append_left _ hm)

theorem dedupPass_ids_mono {tid : String} {f : ProcessedTicketView → Option DuplicateMatch}
    {cid : String} (l : List ProcessedTicketView) (acc : List DuplicateMatch)
    (h : cid ∈ matchIds acc) : cid ∈ matchIds (dedupPass tid f l acc) := by
  simp only [matchIds, List.mem_map] at h ⊢
  obtain ⟨m, hm, rfl⟩ := h
  exact ⟨m, dedupPass_sub l acc m hm, rfl⟩

/-- Provenance of every element of a pass: it was already accumulated, or
the matcher produced it for some non-self candidate of the list and its id
was fresh relative to the incoming accumulator. -/
theorem dedupPass_mem {tid : String} {f : ProcessedTicketView → Option DuplicateMatch} :
    ∀ (l : List ProcessedTicketView) (acc : List DuplicateMatch) (m : DuplicateMatch),
      m ∈ dedupPass tid f l acc →
      m ∈ acc ∨ ((∃ c ∈ l, c.ticket_id ≠ tid ∧ f c = some m) ∧
        m.candidate_ticket_id ∉ matchIds acc) := by
  intro l
  induction l with
  | nil => intro acc m hm; exact Or.inl (by simpa [dedupPass] using hm)
  | cons c rest ih =>
    intro acc m hm
    unfold dedupPass at hm
    split at hm
    · rcases ih acc m hm with h | ⟨⟨c', hc', hne, hfc⟩, hfresh⟩
      · exact Or.inl h
      · exact Or.inr ⟨⟨c', List.mem_cons_of_mem _ hc', hne, hfc⟩, hfresh⟩
    · rename_i hne
      split at hm
      · rcases ih acc m hm with h | ⟨⟨c', hc', hne', hfc⟩, hfresh⟩
        · exact Or.inl h
        · exact Or.inr ⟨⟨c', List.mem_cons_of_mem _ hc', hne', hfc⟩, hfresh⟩
      · rename_i m' hm'
        split at hm
        · rcases ih acc m hm with h | ⟨⟨c', hc', hne', hfc⟩, hfresh⟩
          · exact Or.inl h
          · exact Or.inr ⟨⟨c', List.mem_cons_of_mem _ hc', hne', hfc⟩, hfresh⟩
        · rename_i hal
          rcases ih _ m hm with h | ⟨⟨c', hc', hne', hfc⟩, hfresh⟩
          · rcases List.mem_append.mp h with h' | h'
            · exact Or.inl h'
            · have hmm : m = m' := by simpa using h'
              subst hmm
              refine Or.inr ⟨⟨c, List.mem_cons_self _ _, hne, hm'⟩, ?_⟩
              intro hin
              exact hal ((already_matched_iff _ _).mpr hin)
          · refine Or.inr ⟨⟨c', List.mem_cons_of_mem _ hc', hne', hfc⟩, ?_⟩
            intro hin
            exact hfresh (by simp [matchIds, List.map_append] at *; exact Or.inl hin)

/-- If a non-self candidate of the list is matched by the matcher, its ticket
id is present among the ids of the pass result. -/
theorem dedupPass_id_mem {tid : String} {f : ProcessedTicketView → Option DuplicateMatch}
    (hf : ∀ c m', f c = some m' → m'.candidate_ticket_id = c.ticket_id) :
    ∀ (l : List ProcessedTicketView) (acc : List DuplicateMatch) (c : ProcessedTicketView),
      c ∈ l → c.ticket_id ≠ tid → (∃ m', f c = some m') →
      c.ticket_id ∈ matchIds (dedupPass tid f l acc) := by
  intro l
  induction l with
  | nil => intro acc c hc; exact absurd hc (List.not_mem_nil c)
  | cons c0 rest ih =>
    intro acc c hc hne hm
    rcases List.mem_cons.mp hc with rfl | hc'
    · obtain ⟨m', hm'⟩ := hm
      unfold dedupPass
      split
      · rename_i heq
        exact absurd heq hne
      · split
        · rename_i heq
          rw [hm'] at heq
          exact Option.noConfusion heq
        · rename_i m'' heq
          rw [hm'] at heq
          cases Option.some.inj heq
          split
          · rename_i hal
            have hidin : c.ticket_id ∈ matchIds acc := by
              rw [← hf c m' hm']
              exact (already_matched_iff _ _).mp hal
            exact dedupPass_ids_mono rest acc hidin
          · have hidin : c.ticket_id ∈ matchIds (acc ++ [m']) := by
              simp [matchIds, hf c m' hm']
            exact dedupPass_ids_mono rest _ hidin
    · unfold dedupPass
      split
      · exact ih acc c hc' hne hm
      · split
        · exact ih acc c hc' hne hm
        · split
          · exact ih acc c hc' hne hm
          · exact ih _ c hc' hne hm

/-- The accumulation loop preserves distinctness of candidate ids. -/
theorem dedupPass_nodup {tid : String} {f : ProcessedTicketView → Option DuplicateMatch} :
    ∀ (l : List ProcessedTicketView) (acc : List DuplicateMatch),
      (matchIds acc).Nodup → (matchIds (dedupPass tid f l acc)).Nodup := by
  intro l
  induction l with
  | nil => intro acc h; simpa [dedupPass] using h
  | cons c rest ih =>
    intro acc h
    unfold dedupPass
    split
    · exact ih acc h
    · split
      · exact ih acc h
      · split
        · exact ih acc h
        · rename_i m' hm' hal
          refine ih _ ?_
          have hnotin : m'.candidate_ticket_id ∉ matchIds acc := fun hin =>
            hal ((already_matched_iff _ _).mpr hin)
          simp only [matchIds, List.map_append, List.map_cons, List.map_nil]
          simp only [matchIds] at h hnotin
          refine List.Nodup.append h (List.nodup_singleton _) ?_
          intro a ha hb
          rw [List.mem_singleton] at hb
          subst hb
          exact hnotin ha

/-! ### Facts about the two matcher passes of `check` -/

theorem checkPassMatches_mem {svc : DeduplicationService} {tid : String}
    {aid err : Option String} {rat : Option ℚ} {txt : String} {emb : Option (List ℚ)}
    {cands : List ProcessedTicketView} {m : DuplicateMatch}
    (h : m ∈ checkPassMatches svc tid aid err rat txt emb cands) :
    (∃ c ∈ cands, c.ticket_id ≠ tid ∧
      metadata_match aid err rat c true true svc.metadata_time_window_hours = some m) ∨
    (∃ c ∈ cands, c.ticket_id ≠ tid ∧
      semantic_match emb txt c svc.embedding_fn svc.semantic_exact_threshold
        svc.semantic_likely_threshold = some m) := by
  unfold checkPassMatches at h
  have hmeta : ∀ m' : DuplicateMatch,
      m' ∈ dedupPass tid
        (fun cand => metadata_match aid err rat cand true true svc.metadata_time_window_hours)
        cands [] →
      ∃ c ∈ cands, c.ticket_id ≠ tid ∧
        metadata_match aid err rat c true true svc.metadata_time_window_hours = some m' := by
    intro m' hm'
    rcases dedupPass_mem cands [] m' hm' with h0 | ⟨⟨c, hc, hne, hfc⟩, _⟩
    · exact absurd h0 (List.not_mem_nil m')
    · exact ⟨c, hc, hne, hfc⟩
  split at h
  · rcases dedupPass_mem cands _ m h with h1 | ⟨⟨c, hc, hne, hfc⟩, _⟩
    · exact Or.inl (hmeta m h1)
    · exact Or.inr ⟨c, hc, hne, hfc⟩
  · exact Or.inl (hmeta m h)

theorem checkPassMatches_nodup (svc : DeduplicationService) (tid : String)
    (aid err : Option String) (rat : Option ℚ) (txt : String) (emb : Option (List ℚ))
    (cands : List ProcessedTicketView) :
    (matchIds (checkPassMatches svc tid aid err rat txt emb cands)).Nodup := by
  unfold checkPassMatches
  split
  · exact dedupPass_nodup cands _ (dedupPass_nodup cands [] (by simp [matchIds]))
  · exact dedupPass_nodup cands [] (by simp [matchIds])

theorem checkPassMatches_not_KI {svc : DeduplicationService} {tid : String}
    {aid err : Option String} {rat : Option ℚ} {txt : String} {emb : Option (List ℚ)}
    {cands : List ProcessedTicketView} {m : DuplicateMatch}
    (h : m ∈ checkPassMatches svc tid aid err rat txt emb cands) :
    m.match_type ≠ DuplicateMatchType.KNOWN_INCIDENT := by
  rcases checkPassMatches_mem h with ⟨c, _, _, hfc⟩ | ⟨c, _, _, hfc⟩
  · rw [metadata_match_eq_some hfc]
    intro hx
    exact DuplicateMatchType.noConfusion hx
  · rcases semantic_match_eq_some hfc with ⟨a, b, _, _, ⟨hk, _⟩ | ⟨hk, _⟩⟩ <;>
      rw [hk] <;> intro hx <;> exact DuplicateMatchType.noConfusion hx

/-- `check` unfolded at the result record: the matches field. -/
theorem check_matches_eq (svc : DeduplicationService) (tid : String)
    (aid err : Option String) (rat : Option ℚ) (txt : String) (emb : Option (List ℚ))
    (cands : List ProcessedTicketView) (prod : Option String) :
    (svc.check tid aid err rat txt emb cands prod).«matches» =
      (match (incident_match tid aid prod svc.get_active_incident_ids svc.link_to_incident).1 with
        | some m => checkPassMatches svc tid aid err rat txt emb cands ++ [m]
        | none => checkPassMatches svc tid aid err rat txt emb cands) := rfl

/-- `check` unfolded at the result record: the linked incident id field. -/
theorem check_linked_eq (svc : DeduplicationService) (tid : String)
    (aid err : Option String) (rat : Option ℚ) (txt : String) (emb : Option (List ℚ))
    (cands : List ProcessedTicketView) (prod : Option String) :
    (svc.check tid aid err rat txt emb cands prod).linked_incident_id =
      (match (incident_match tid aid prod svc.get_active_incident_ids svc.link_to_incident).1 with
        | some _ => (incident_match tid aid prod svc.get_active_incident_ids svc.link_to_incident).2
        | none => none) := rfl

/-- `check` unfolded at the result record: the action field is the fixed
priority fold over the matches field. -/
theorem check_action_eq (svc : DeduplicationService) (tid : String)
    (aid err : Option String) (rat : Option ℚ) (txt : String) (emb : Option (List ℚ))
    (cands : List ProcessedTicketView) (prod : Option String) :
    (svc.check tid aid err rat txt emb cands prod).action =
      (if (svc.check tid aid err rat txt emb cands prod).«matches».any
          fun m => m.match_type == DuplicateMatchType.KNOWN_INCIDENT then
        DeduplicationAction.LINK_NOTIFY
      else if (svc.check tid aid err rat txt emb cands prod).«matches».any
          fun m => m.match_type == DuplicateMatchType.EXACT then
        DeduplicationAction.AUTO_MERGE
      else if (svc.check tid aid err rat txt emb cands prod).«matches».any
          fun m => m.match_type == DuplicateMatchType.LIKELY then
        DeduplicationAction.AGENT_REVIEW
      else DeduplicationAction.NONE) := rfl

theorem filter_id_eq_nil {l : List DuplicateMatch} {cid : String}
    (h : cid ∉ matchIds l) :
    l.filter (fun m => m.candidate_ticket_id == cid) = [] := by
  rw [List.filter_eq_nil_iff]
  intro m hm
  simp only [beq_iff_eq]
  intro hedge
  exact h (hedge ▸ List.mem_map_of_mem (fun m => m.candidate_ticket_id) hm)

/-- With distinct candidate ids, filtering a match list by a present id yields
exactly one match. -/
theorem filter_id_singleton :
    ∀ {l : List DuplicateMatch}, (matchIds l).Nodup → ∀ {cid : String}, cid ∈ matchIds l →
      ∃ m', l.filter (fun m => m.candidate_ticket_id == cid) = [m'] ∧ m' ∈ l ∧
        m'.candidate_ticket_id = cid := by
  intro l
  induction l with
  | nil => intro _ cid hin; exact absurd hin (by simp [matchIds])
  | cons a rest ih =>
    intro hnd cid hin
    have hnd' : (matchIds rest).Nodup := by
      simpa [matchIds] using hnd.of_cons
    by_cases ha : a.candidate_ticket_id = cid
    · refine ⟨a, ?_, List.mem_cons_self a rest, ha⟩
      have hpair : (∀ x ∈ rest, ¬ x.candidate_ticket_id = a.candidate_ticket_id) ∧
          (List.map (fun m => m.candidate_ticket_id) rest).Nodup := by
        simpa [matchIds] using hnd
      have hnotin : cid ∉ matchIds rest := by
        subst ha
        intro hmem
        rcases (by simpa [matchIds] using hmem :
          ∃ x ∈ rest, x.candidate_ticket_id = a.candidate_ticket_id) with ⟨x, hx, hxe⟩
        exact hpair.1 x hx hxe
      rw [List.filter_cons_of_pos (by simpa using ha), filter_id_eq_nil hnotin]
    · have hin' : cid ∈ matchIds rest := by
        rcases (by simpa [matchIds] using hin :
          cid = a.candidate_ticket_id ∨ ∃ x ∈ rest, x.candidate_ticket_id = cid) with h | h
        · exact absurd h.symm ha
        · simpa [matchIds] using h
      obtain ⟨m', hf, hmem, hid⟩ := ih hnd' hin'
      exact ⟨m', by rw [List.filter_cons_of_neg (by simpa using ha), hf],
        List.mem_cons_of_mem a hmem, hid⟩

/-! ### Claims -/

/-- C1: for every invocation of `DeduplicationService.check`, the returned
action is resolved by fixed priority over the accumulated matches,
independent of their count: `LINK_NOTIFY` if any match has kind
`KNOWN_INCIDENT`, else `AUTO_MERGE` if any match has kind `EXACT`, else
`AGENT_REVIEW` if any match has kind `LIKELY`, else `NONE`.  In particular a
result containing a `KNOWN_INCIDENT` match resolves to `LINK_NOTIFY`, never
to `AUTO_MERGE` or `AGENT_REVIEW`. -/
theorem C1_action_priority (svc : DeduplicationService) (tid : String)
    (aid err : Option String) (rat : Option ℚ) (txt : String) (emb : Option (List ℚ))
    (cands : List ProcessedTicketView) (prod : Option String) :
    (svc.check tid aid err rat txt emb cands prod).action =
      (if (svc.check tid aid err rat txt emb cands prod).«matches».any
          (fun m => m.match_type == DuplicateMatchType.KNOWN_INCIDENT) then
        DeduplicationAction.LINK_NOTIFY
      else if (svc.check tid aid err rat txt emb cands prod).«matches».any
          (fun m => m.match_type == DuplicateMatchType.EXACT) then
        DeduplicationAction.AUTO_MERGE
      else if (svc.check tid aid err rat txt emb cands prod).«matches».any
          (fun m => m.match_type == DuplicateMatchType.LIKELY) then
        DeduplicationAction.AGENT_REVIEW
      else DeduplicationAction.NONE) :=
  check_action_eq svc tid aid err rat txt emb cands prod

/-- C6: the cosine similarity of any vector of non-zero Euclidean norm with
itself is `1.0`. -/
theorem C6_cosine_self (v : List ℚ)
    (hv : Real.sqrt ((listSumSq v : ℚ) : ℝ) ≠ 0) : cosine_similarity v v = 1 := by
  have hs : listSumSq v ≠ 0 := by
    intro h0
    apply hv
    rw [h0]
    simp [Real.sqrt_eq_zero']
  exact cosine_similarity_self hs

/-- C6 witness: the vector `[1]` has norm `1 ≠ 0` and similarity `1` with
itself. -/
theorem C6_cosine_self_witness :
    Real.sqrt ((listSumSq [1] : ℚ) : ℝ) ≠ 0 ∧ cosine_similarity [1] [1] = 1 := by
  have h1 : listSumSq [1] = (1:ℚ) := by norm_num [listSumSq]
  have hv : Real.sqrt ((listSumSq [1] : ℚ) : ℝ) ≠ 0 := by
    rw [h1]
    push_cast
    rw [Real.sqrt_one]
    norm_num
  exact ⟨hv, C6_cosine_self [1] hv⟩

/-- C9: in every result of `check`, `linked_incident_id` equals the incident
id returned by the incident correlator, and it is non-null exactly when the
action is `LINK_NOTIFY`. -/
theorem C9_linked_incident (svc : DeduplicationService) (tid : String)
    (aid err : Option String) (rat : Option ℚ) (txt : String) (emb : Option (List ℚ))
    (cands : List ProcessedTicketView) (prod : Option String) :
    (svc.check tid aid err rat txt emb cands prod).linked_incident_id =
      (incident_match tid aid prod svc.get_active_incident_ids svc.link_to_incident).2 ∧
    ((svc.check tid aid err rat txt emb cands prod).linked_incident_id ≠ none ↔
      (svc.check tid aid err rat txt emb cands prod).action =
        DeduplicationAction.LINK_NOTIFY) := by
  rcases incident_match_spec tid aid prod svc.get_active_incident_ids svc.link_to_incident with
    hspec | ⟨mi, hspec, hKI, _⟩
  · have h1 : (incident_match tid aid prod svc.get_active_incident_ids
        svc.link_to_incident).1 = none := by rw [hspec]
    have h2 : (incident_match tid aid prod svc.get_active_incident_ids
        svc.link_to_incident).2 = none := by rw [hspec]
    have hl : (svc.check tid aid err rat txt emb cands prod).linked_incident_id = none := by
      simp only [check_linked_eq, h1]
    have hm : (svc.check tid aid err rat txt emb cands prod).«matches» =
        checkPassMatches svc tid aid err rat txt emb cands := by
      simp only [check_matches_eq, h1]
    have hany : ((svc.check tid aid err rat txt emb cands prod).«matches».any
        (fun m => m.match_type == DuplicateMatchType.KNOWN_INCIDENT)) = false := by
      rw [hm, List.any_eq_false]
      intro m hmem
      simpa [beq_iff_eq] using checkPassMatches_not_KI hmem
    have hact : (svc.check tid aid err rat txt emb cands prod).action ≠
        DeduplicationAction.LINK_NOTIFY := by
      rw [check_action_eq, hany]
      simp only [Bool.false_eq_true, if_false]
      split_ifs <;> simp
    refine ⟨by rw [hl, h2], ?_⟩
    rw [hl]
    simp [hact]
  · have h1 : (incident_match tid aid prod svc.get_active_incident_ids
        svc.link_to_incident).1 = some mi := by rw [hspec]
    have h2 : (incident_match tid aid prod svc.get_active_incident_ids
        svc.link_to_incident).2 = some mi.candidate_ticket_id := by rw [hspec]
    have hl : (svc.check tid aid err rat txt emb cands prod).linked_incident_id =
        some mi.candidate_ticket_id := by
      simp only [check_linked_eq, h1, h2]
    have hm : (svc.check tid aid err rat txt emb cands prod).«matches» =
        checkPassMatches svc tid aid err rat txt emb cands ++ [mi] := by
      simp only [check_matches_eq, h1]
    have hany : ((svc.check tid aid err rat txt emb cands prod).«matches».any
        (fun m => m.match_type == DuplicateMatchType.KNOWN_INCIDENT)) = true := by
      rw [hm, List.any_append]
      simp [hKI]
    have hact : (svc.check tid aid err rat txt emb cands prod).action =
        DeduplicationAction.LINK_NOTIFY := by
      rw [check_action_eq, hany]
      simp
    refine ⟨by rw [hl, h2], ?_⟩
    rw [hl, hact]
    simp

/-- C10: a linker returning the empty string (falsy but non-null) is treated
as no incident: the correlator reports nothing, and `check` behaves exactly
as if no incident collaborators had been supplied. -/
theorem C10_falsy_incident_id (fn : Option (String → List ℚ)) (te tl w : ℚ)
    (g : Option (Unit → List String))
    (f : String → Option String → Option String → Option String)
    (tid : String) (aid err : Option String) (rat : Option ℚ) (txt : String)
    (emb : Option (List ℚ)) (cands : List ProcessedTicketView) (prod : Option String)
    (hf : f tid aid prod = some "") :
    incident_match tid aid prod g (some f) = (none, none) ∧
    (DeduplicationService.mk fn te tl w g (some f)).check tid aid err rat txt emb cands prod =
      (DeduplicationService.mk fn te tl w none none).check tid aid err rat txt emb cands
        prod := by
  have hinc : incident_match tid aid prod g (some f) = (none, none) := by
    simp [incident_match, hf]
  have hinc2 : incident_match tid aid prod none none = (none, none) := rfl
  have hpass : checkPassMatches (DeduplicationService.mk fn te tl w g (some f)) tid aid err
      rat txt emb cands =
      checkPassMatches (DeduplicationService.mk fn te tl w none none) tid aid err rat txt emb
        cands := rfl
  refine ⟨hinc, ?_⟩
  simp only [DeduplicationService.check, hinc, hinc2, hpass]

/-- C10 witness: concrete run with a linker that returns `""`. -/
theorem C10_falsy_incident_id_witness :
    (fun (_ : String) (_ _ : Option String) => (some "" : Option String)) "t" none none =
      some "" ∧
    (incident_match "t" none none none
        (some (fun _ _ _ => some "")) = (none, none) ∧
      (DeduplicationService.mk none (92/100) (85/100) 1 none
          (some (fun _ _ _ => some ""))).check "t" none none none "" none [] none =
        (DeduplicationService.mk none (92/100) (85/100) 1 none none).check "t" none none none
          "" none [] none) :=
  ⟨rfl, C10_falsy_incident_id none (92/100) (85/100) 1 none _ "t" none none none "" none []
    none rfl⟩

/-! ### Concrete fixtures shared by counterexamples and witnesses -/

/-- A stored candidate with ticket id `"X"`, same account/error/timestamp as
the current record used in the concrete runs below. -/
def cexCand : ProcessedTicketView :=
  ProcessedTicketView.mk "X" (some "a") (some "err") (some 0) "" none

/-- A service with default thresholds and no collaborators. -/
def plainSvc : DeduplicationService :=
  DeduplicationService.mk none (92/100) (85/100) 1 none none

/-- A service whose incident linker always reports incident `"X"` — the same
identifier as `cexCand`'s ticket id. -/
def linkXSvc : DeduplicationService :=
  DeduplicationService.mk none (92/100) (85/100) 1 none (some fun _ _ _ => some "X")

/-- A service whose incident linker always reports incident `"INC-1"`. -/
def linkIncSvc : DeduplicationService :=
  DeduplicationService.mk none (92/100) (85/100) 1 none (some fun _ _ _ => some "INC-1")

/-- Concrete evaluation: with no embedding source anywhere, checking against
`cexCand` yields exactly the metadata match, which carries score `1.0`. -/
theorem plain_check_matches :
    (plainSvc.check "t" (some "a") (some "err") (some 0) "" none [cexCand] none).«matches» =
      [DuplicateMatch.mk "X" .EXACT (some 1)
        "Same account, same error string, same timeframe"] := by
  simp only [DeduplicationService.check, checkPassMatches, dedupPass, metadata_match, cexCand,
    plainSvc, same_timeframe, incident_match, already_matched, embTruthy]
  norm_num
  decide

/-- C2 counterexample: an invocation of `check` with an empty candidate list
whose incident linker fires produces action `LINK_NOTIFY` and a non-empty
match list, refuting "the result is `NONE` with zero matches for any values
of the other inputs and injected collaborators". -/
theorem C2_counterexample :
    (linkIncSvc.check "t1" none none none "" none [] none).action =
      DeduplicationAction.LINK_NOTIFY ∧
    (linkIncSvc.check "t1" none none none "" none [] none).«matches» ≠ [] := by
  decide

/-- C2 amended: with an empty candidate list, *and the incident correlator
reporting no incident*, the result is `NONE` with zero matches (and no linked
incident id). -/
theorem C2_empty_candidates (svc : DeduplicationService) (tid : String)
    (aid err : Option String) (rat : Option ℚ) (txt : String) (emb : Option (List ℚ))
    (prod : Option String)
    (hinc : incident_match tid aid prod svc.get_active_incident_ids svc.link_to_incident =
      (none, none)) :
    svc.check tid aid err rat txt emb [] prod =
      DeduplicationResult.mk tid DeduplicationAction.NONE [] none := by
  simp only [DeduplicationService.check, hinc]
  rfl

/-- C2 witness: the amended statement at a concrete service with no
collaborators. -/
theorem C2_empty_candidates_witness :
    incident_match "t" none none plainSvc.get_active_incident_ids plainSvc.link_to_incident =
      (none, none) ∧
    plainSvc.check "t" none none none "" none [] none =
      DeduplicationResult.mk "t" DeduplicationAction.NONE [] none :=
  ⟨rfl, C2_empty_candidates plainSvc "t" none none none "" none none rfl⟩

/-- C3 counterexample: in a run with no embedding source anywhere (no current
embedding, no embedding provider) — so the Semantic Matcher cannot have
produced anything — the single returned match still carries a similarity
score (`1.0`, from the Metadata Matcher), refuting "a score is present only
on matches produced by the Semantic Matcher". -/
theorem C3_counterexample :
    plainSvc.embedding_fn = none ∧
    (plainSvc.check "t" (some "a") (some "err") (some 0) "" none [cexCand] none).«matches» =
      [DuplicateMatch.mk "X" .EXACT (some 1)
        "Same account, same error string, same timeframe"] :=
  ⟨rfl, plain_check_matches⟩

/-- C3 amended: a similarity score is present on a match exactly when the
match was *not* produced by the Incident Correlator (metadata matches carry
`1.0`, semantic matches the rounded cosine similarity); and, provided the two
similarity thresholds are non-negative (the defaults `0.92`/`0.85` are),
every present score lies in `[0, 1]`. -/
theorem C3_scores (svc : DeduplicationService) (tid : String)
    (aid err : Option String) (rat : Option ℚ) (txt : String) (emb : Option (List ℚ))
    (cands : List ProcessedTicketView) (prod : Option String)
    (hte : 0 ≤ svc.semantic_exact_threshold) (htl : 0 ≤ svc.semantic_likely_threshold)
    (m : DuplicateMatch)
    (hm : m ∈ (svc.check tid aid err rat txt emb cands prod).«matches») :
    (m.similarity_score = none ↔ m.match_type = DuplicateMatchType.KNOWN_INCIDENT) ∧
    (∀ q : ℚ, m.similarity_score = some q → 0 ≤ q ∧ q ≤ 1) := by
  have hmem : m ∈ checkPassMatches svc tid aid err rat txt emb cands ∨
      (incident_match tid aid prod svc.get_active_incident_ids svc.link_to_incident).1 =
        some m := by
    rw [check_matches_eq] at hm
    rcases hh : (incident_match tid aid prod svc.get_active_incident_ids
        svc.link_to_incident).1 with _ | mi
    · simp only [hh] at hm
      exact Or.inl hm
    · simp only [hh] at hm
      rcases List.mem_append.mp hm with h | h
      · exact Or.inl h
      · rw [List.mem_singleton] at h
        subst h
        exact Or.inr rfl
  rcases hmem with hpass | hinc
  · rcases checkPassMatches_mem hpass with ⟨c, _, _, hfc⟩ | ⟨c, _, _, hfc⟩
    · rw [metadata_match_eq_some hfc]
      refine ⟨by simp, ?_⟩
      intro q hq
      simp only [Option.some.injEq] at hq
      rw [← hq]
      norm_num
    · rcases semantic_match_eq_some hfc with ⟨a, b, _, hscore, hbr⟩
      have hcos_le := cosine_similarity_le_one a b
      have h0 : (0:ℝ) ≤ cosine_similarity a b := by
        rcases hbr with ⟨_, hge⟩ | ⟨_, hge⟩
        · calc (0:ℝ) ≤ (svc.semantic_exact_threshold : ℝ) := by exact_mod_cast hte
            _ ≤ _ := hge
        · calc (0:ℝ) ≤ (svc.semantic_likely_threshold : ℝ) := by exact_mod_cast htl
            _ ≤ _ := hge
      have htype : m.match_type ≠ DuplicateMatchType.KNOWN_INCIDENT := by
        rcases hbr with ⟨hk, _⟩ | ⟨hk, _⟩ <;> rw [hk] <;> simp
      refine ⟨⟨fun h => absurd (hscore ▸ h) (by simp), fun h => absurd h htype⟩, ?_⟩
      intro q hq
      rw [hscore] at hq
      cases Option.some.inj hq
      exact ⟨round4_nonneg h0, round4_le_one hcos_le⟩
  · rcases incident_match_spec tid aid prod svc.get_active_incident_ids svc.link_to_incident
      with hspec | ⟨mi, hspec, hKI, hsc⟩
    · rw [hspec] at hinc
      exact Option.noConfusion hinc
    · have hmi : mi = m := by
        rw [hspec] at hinc
        exact Option.some.inj hinc
      subst hmi
      refine ⟨⟨fun _ => hKI, fun _ => hsc⟩, ?_⟩
      intro q hq
      rw [hsc] at hq
      exact Option.noConfusion hq

/-- C3 witness: the amended statement at the concrete metadata-match run. -/
theorem C3_scores_witness :
    (0 : ℚ) ≤ plainSvc.semantic_exact_threshold ∧
    (0 : ℚ) ≤ plainSvc.semantic_likely_threshold ∧
    DuplicateMatch.mk "X" .EXACT (some 1) "Same account, same error string, same timeframe" ∈
      (plainSvc.check "t" (some "a") (some "err") (some 0) "" none [cexCand] none).«matches» ∧
    (((DuplicateMatch.mk "X" .EXACT (some 1)
        "Same account, same error string, same timeframe").similarity_score = none ↔
      (DuplicateMatch.mk "X" .EXACT (some 1)
        "Same account, same error string, same timeframe").match_type =
        DuplicateMatchType.KNOWN_INCIDENT) ∧
    (∀ q : ℚ, (DuplicateMatch.mk "X" .EXACT (some 1)
        "Same account, same error string, same timeframe").similarity_score = some q →
      0 ≤ q ∧ q ≤ 1)) := by
  refine ⟨by norm_num [plainSvc], by norm_num [plainSvc], ?_, ?_⟩
  · rw [plain_check_matches]
    exact List.mem_singleton_self _
  · exact C3_scores plainSvc "t" (some "a") (some "err") (some 0) "" none [cexCand] none
      (by norm_num [plainSvc]) (by norm_num [plainSvc]) _
      (by rw [plain_check_matches]; exact List.mem_singleton_self _)

/-- C5 counterexample: when the incident linker returns an identifier equal
to a matched candidate's ticket id (`"X"`), the result retains *two* matches
with the same candidate id — the incident match is appended without the
per-candidate dedup check. -/
theorem C5_counterexample :
    ((linkXSvc.check "t" (some "a") (some "err") (some 0) "" none [cexCand] none).«matches».map
      (fun m => m.candidate_ticket_id)) = ["X", "X"] ∧
    ¬ ((linkXSvc.check "t" (some "a") (some "err") (some 0) "" none [cexCand]
        none).«matches».map (fun m => m.candidate_ticket_id)).Nodup := by
  have h : ((linkXSvc.check "t" (some "a") (some "err") (some 0) "" none [cexCand]
      none).«matches».map (fun m => m.candidate_ticket_id)) = ["X", "X"] := by
    simp only [DeduplicationService.check, checkPassMatches, dedupPass, metadata_match, cexCand,
      linkXSvc, same_timeframe, incident_match, already_matched, embTruthy]
    norm_num
    decide
  refine ⟨h, ?_⟩
  rw [h]
  decide

/-- C5 amended: at most one match per distinct candidate id is retained
*among the matches produced by the metadata and semantic passes* (first
detected wins); the incident-correlator match is appended without this check,
so its identifier may coincide with a candidate's. -/
theorem C5_dedup_non_incident (svc : DeduplicationService) (tid : String)
    (aid err : Option String) (rat : Option ℚ) (txt : String) (emb : Option (List ℚ))
    (cands : List ProcessedTicketView) (prod : Option String) :
    (matchIds ((svc.check tid aid err rat txt emb cands prod).«matches».filter
      (fun m => !(m.match_type == DuplicateMatchType.KNOWN_INCIDENT)))).Nodup := by
  have hfself : (checkPassMatches svc tid aid err rat txt emb cands).filter
      (fun m => !(m.match_type == DuplicateMatchType.KNOWN_INCIDENT)) =
      checkPassMatches svc tid aid err rat txt emb cands := by
    rw [List.filter_eq_self]
    intro m hm
    simpa using checkPassMatches_not_KI hm
  rcases hh : (incident_match tid aid prod svc.get_active_incident_ids
      svc.link_to_incident).1 with _ | mi
  · rw [check_matches_eq]
    simp only [hh]
    rw [hfself]
    exact checkPassMatches_nodup svc tid aid err rat txt emb cands
  · rcases incident_match_spec tid aid prod svc.get_active_incident_ids svc.link_to_incident
      with hspec | ⟨mi', hspec, hKI, _⟩
    · rw [hspec] at hh
      exact Option.noConfusion hh
    · have hmi : mi' = mi := by
        rw [hspec] at hh
        exact Option.some.inj hh
      subst hmi
      rw [check_matches_eq]
      simp only [hh]
      rw [List.filter_append]
      have hfi : [mi'].filter (fun m => !(m.match_type == DuplicateMatchType.KNOWN_INCIDENT)) =
          [] := by
        simp [hKI]
      rw [hfi, List.append_nil, hfself]
      exact checkPassMatches_nodup svc tid aid err rat txt emb cands

/-- Candidate with an empty (falsy) account id, used by the C8
counterexample. -/
def c8Cand : ProcessedTicketView :=
  ProcessedTicketView.mk "c8" (some "") (some "db down") (some 0) "" none

/-- C8 counterexample: identical (empty) account identifiers, identical error
texts, and equal timestamps — yet the metadata matcher returns no match,
because an empty account id is falsy and rejected up front.  This refutes the
claim for degenerate but identical identifiers. -/
theorem C8_counterexample :
    (some "" : Option String) = c8Cand.account_id ∧
    normalize_error_message (some "db down") = normalize_error_message c8Cand.error_message ∧
    same_timeframe (some 0) c8Cand.received_at 1 = true ∧
    metadata_match (some "") (some "db down") (some 0) c8Cand true true 1 = none := by
  refine ⟨rfl, rfl, ?_, rfl⟩
  simp [same_timeframe, c8Cand]

/-- C8 amended: for *non-empty* identical account identifiers, identical and
*non-empty* normalized error texts, and timestamps both present within the
configured window, the metadata matcher (default flags) returns `EXACT` with
score `1.0`. -/
theorem C8_metadata_exact (aid : String) (aerr : Option String) (t1 t2 w : ℚ)
    (cand : ProcessedTicketView)
    (haid : aid ≠ "") (hacc : cand.account_id = some aid)
    (herr : normalize_error_message aerr = normalize_error_message cand.error_message)
    (herrne : normalize_error_message aerr ≠ "")
    (ht2 : cand.received_at = some t2)
    (hw : |t1 - t2| ≤ w * 3600) :
    metadata_match (some aid) aerr (some t1) cand true true w =
      some (DuplicateMatch.mk cand.ticket_id .EXACT (some 1)
        "Same account, same error string, same timeframe") := by
  unfold metadata_match
  rw [if_neg (by simp [haid, hacc])]
  rw [if_neg (by simp [hacc])]
  rw [if_neg (by simp [← herr, herrne])]
  rw [if_neg (by simp [herr])]
  rw [if_neg (by simp [same_timeframe, ht2, decide_eq_true_eq]; exact hw)]
  rfl

/-- Candidate used by the C8 witness. -/
def c8wCand : ProcessedTicketView :=
  ProcessedTicketView.mk "c7" (some "a1") (some "Db   down") (some 1800) "" none

/-- C8 witness: a concrete in-window pair with differently-spaced and
differently-cased error text. -/
theorem C8_metadata_exact_witness :
    ("a1" : String) ≠ "" ∧ c8wCand.account_id = some "a1" ∧
    normalize_error_message (some "db DOWN") = normalize_error_message c8wCand.error_message ∧
    normalize_error_message (some "db DOWN") ≠ "" ∧
    c8wCand.received_at = some 1800 ∧ |(0:ℚ) - 1800| ≤ 1 * 3600 ∧
    metadata_match (some "a1") (some "db DOWN") (some 0) c8wCand true true 1 =
      some (DuplicateMatch.mk c8wCand.ticket_id .EXACT (some 1)
        "Same account, same error string, same timeframe") := by
  refine ⟨by decide, rfl, by decide, by decide, rfl, by norm_num, ?_⟩
  exact C8_metadata_exact "a1" (some "db DOWN") 0 1800 1 c8wCand (by decide) rfl (by decide)
    (by decide) rfl (by norm_num)

/-! ### C4: the stored semantic score is the rounded cosine -/

/-- Concrete cosine value: `[5,4,1]` and `[4,5,1]` both have squared norm
`42`, so the similarity is exactly `41/42`. -/
theorem cosine_54 : cosine_similarity [5, 4, 1] [4, 5, 1] = (41 : ℝ) / 42 := by
  have hg : ¬ (([5,4,1] : List ℚ) = [] ∨ ([4,5,1] : List ℚ) = [] ∨
      ([5,4,1] : List ℚ).length ≠ ([4,5,1] : List ℚ).length) := by simp
  rw [cosine_similarity, if_neg hg]
  have hda : listDot [5,4,1] [4,5,1] = (41:ℚ) := by norm_num [listDot]
  have hsa : listSumSq [5,4,1] = (42:ℚ) := by norm_num [listSumSq]
  have hsb : listSumSq [4,5,1] = (42:ℚ) := by norm_num [listSumSq]
  simp only [hda, hsa, hsb]
  have hsqrt : Real.sqrt ((42:ℚ) : ℝ) ≠ 0 := by
    rw [Real.sqrt_ne_zero']
    norm_num
  rw [if_neg (by simp [hsqrt])]
  rw [Real.mul_self_sqrt (by norm_num : (0:ℝ) ≤ ((42:ℚ) : ℝ))]
  norm_num

/-- `round(41/42, 4) = 0.9762`. -/
theorem round4_41_42 : round4 ((41 : ℝ) / 42) = 4881 / 5000 := by
  unfold round4
  have h : round ((41 : ℝ) / 42 * 10000) = 9762 := by
    rw [round_eq]
    have : (⌊(41 : ℝ) / 42 * 10000 + 1 / 2⌋ : ℤ) = 9762 := by
      rw [Int.floor_eq_iff]
      constructor
      · norm_num
      · norm_num
    exact this
  rw [h]
  norm_num

/-- The candidate used in the C4 run: a stored embedding `[4,5,1]`. -/
def c4Cand : ProcessedTicketView :=
  ProcessedTicketView.mk "Y" none none none "" (some [4, 5, 1])

/-- The match the semantic matcher produces for the C4 run (score and reason
left in terms of the definitions). -/
noncomputable def c4Match : DuplicateMatch :=
  DuplicateMatch.mk "Y" .EXACT (some (round4 (cosine_similarity [5, 4, 1] [4, 5, 1])))
    ("Semantic similarity " ++ pyFormat2 (cosine_similarity [5, 4, 1] [4, 5, 1]) ++ " >= " ++
      toString ((92 : ℚ) / 100))

/-- Concrete evaluation of the semantic matcher on the C4 inputs. -/
theorem sem_54 :
    semantic_match (some [5, 4, 1]) "" c4Cand none (92 / 100) (85 / 100) = some c4Match := by
  have hcond : ((92 / 100 : ℚ) : ℝ) ≤ cosine_similarity [5, 4, 1] [4, 5, 1] := by
    rw [cosine_54]
    norm_num
  simp only [semantic_match, c4Cand]
  rw [if_neg (by simp), if_neg (by simp)]
  rw [if_pos hcond]
  rfl

/-- C4 counterexample: the score stored on the returned `EXACT` match is
`0.9762`, which differs from the cosine similarity `41/42 = 0.97619…` that
was compared against the thresholds. -/
theorem C4_counterexample :
    (semantic_match (some [5, 4, 1]) "" c4Cand none (92 / 100) (85 / 100)).map
      (fun m => m.similarity_score) = some (some (4881 / 5000)) ∧
    (((4881 : ℚ) / 5000 : ℚ) : ℝ) ≠ cosine_similarity [5, 4, 1] [4, 5, 1] := by
  constructor
  · rw [sem_54]
    simp only [Option.map_some, c4Match]
    rw [cosine_54, round4_41_42]
    rfl
  · rw [cosine_54]
    norm_num

/-- C4 amended: whenever the Semantic Matcher returns a match (kind `EXACT`
or `LIKELY`) for a pair of directly supplied embeddings, the stored
similarity score is the cosine similarity *rounded to four decimal places*;
the unrounded value is what was compared against the thresholds. -/
theorem C4_rounded_score (a b : List ℚ) (ct : String) (cand : ProcessedTicketView)
    (fn : Option (String → List ℚ)) (te tl : ℚ) (m : DuplicateMatch)
    (hb : cand.embedding = some b)
    (h : semantic_match (some a) ct cand fn te tl = some m) :
    m.similarity_score = some (round4 (cosine_similarity a b)) := by
  simp only [semantic_match, hb] at h
  split at h
  · exact Option.noConfusion h
  · split at h
    · exact Option.noConfusion h
    · split at h
      · cases Option.some.inj h
        rfl
      · split at h
        · cases Option.some.inj h
          rfl
        · exact Option.noConfusion h

/-- C4 witness: the amended statement at the concrete C4 run. -/
theorem C4_rounded_score_witness :
    c4Cand.embedding = some [4, 5, 1] ∧
    semantic_match (some [5, 4, 1]) "" c4Cand none (92 / 100) (85 / 100) = some c4Match ∧
    c4Match.similarity_score = some (round4 (cosine_similarity [5, 4, 1] [4, 5, 1])) :=
  ⟨rfl, sem_54,
    C4_rounded_score [5, 4, 1] [4, 5, 1] "" c4Cand none (92 / 100) (85 / 100) c4Match rfl
      sem_54⟩

/-! ### C7: metadata precedence over semantic for the same candidate -/

/-- Candidate matched by both the metadata pass (same account, error,
timestamp) and the semantic pass (identical embedding `[1]`). -/
def c7Cand : ProcessedTicketView :=
  ProcessedTicketView.mk "X" (some "a") (some "err") (some 0) "" (some [1])

theorem cos_one : cosine_similarity [1] [1] = 1 :=
  cosine_similarity_self (by norm_num [listSumSq])

/-- The match the semantic matcher would produce for `c7Cand`. -/
noncomputable def c7SemMatch : DuplicateMatch :=
  DuplicateMatch.mk "X" .EXACT (some (round4 (cosine_similarity [1] [1])))
    ("Semantic similarity " ++ pyFormat2 (cosine_similarity [1] [1]) ++ " >= " ++
      toString ((92 : ℚ) / 100))

/-- Concrete evaluation of the semantic matcher on the C7 inputs. -/
theorem sem_one :
    semantic_match (some [1]) "" c7Cand none (92 / 100) (85 / 100) = some c7SemMatch := by
  have hcond : ((92 / 100 : ℚ) : ℝ) ≤ cosine_similarity [1] [1] := by
    rw [cos_one]
    norm_num
  simp only [semantic_match, c7Cand]
  rw [if_neg (by simp), if_neg (by simp)]
  rw [if_pos hcond]
  rfl

/-- Concrete evaluation of the metadata matcher on the C7 inputs. -/
theorem meta_c7 :
    metadata_match (some "a") (some "err") (some 0) c7Cand true true 1 =
      some (DuplicateMatch.mk "X" .EXACT (some 1)
        "Same account, same error string, same timeframe") := by
  simp only [metadata_match, c7Cand, same_timeframe]
  norm_num
  decide

/-- C7 counterexample: `c7Cand` is matched by both the metadata and the
semantic pass, yet its id `"X"` appears *twice* in the returned matches —
the incident correlator reported the colliding identifier `"X"` and its match
is appended without the per-candidate dedup rule.  This refutes "appears
exactly once in the returned matches list". -/
theorem C7_counterexample :
    metadata_match (some "a") (some "err") (some 0) c7Cand true true 1 ≠ none ∧
    semantic_match (some [1]) "" c7Cand none (92 / 100) (85 / 100) ≠ none ∧
    ((linkXSvc.check "t" (some "a") (some "err") (some 0) "" (some [1]) [c7Cand]
        none).«matches».map (fun m => m.candidate_ticket_id)) = ["X", "X"] := by
  refine ⟨by rw [meta_c7]; simp, by rw [sem_one]; simp, ?_⟩
  have hq1 : c7Cand.ticket_id = "X" := rfl
  have hq2 : c7SemMatch.candidate_ticket_id = "X" := rfl
  simp only [DeduplicationService.check, checkPassMatches, dedupPass, linkXSvc, embTruthy,
    incident_match, already_matched, hq1, hq2, meta_c7, sem_one]
  decide

/-- C7 amended: when a candidate is matched by both the Metadata and the
Semantic pass, its id appears exactly once *among the matches not produced by
the incident correlator* (kind ≠ `KNOWN_INCIDENT`), and the retained match is
the metadata one: kind `EXACT`, score `1.0`, the metadata reason.  (The
incident correlator may still append a match with a coinciding id, see the
counterexample.) -/
theorem C7_metadata_precedence (svc : DeduplicationService) (tid : String)
    (aid err : Option String) (rat : Option ℚ) (txt : String) (emb : Option (List ℚ))
    (cands : List ProcessedTicketView) (prod : Option String)
    (cand : ProcessedTicketView) (m1 m2 : DuplicateMatch)
    (hc : cand ∈ cands) (hne : cand.ticket_id ≠ tid)
    (h1 : metadata_match aid err rat cand true true svc.metadata_time_window_hours = some m1)
    (_h2 : semantic_match emb txt cand svc.embedding_fn svc.semantic_exact_threshold
      svc.semantic_likely_threshold = some m2) :
    (svc.check tid aid err rat txt emb cands prod).«matches».filter
      (fun m => m.candidate_ticket_id == cand.ticket_id &&
        !(m.match_type == DuplicateMatchType.KNOWN_INCIDENT)) =
      [DuplicateMatch.mk cand.ticket_id .EXACT (some 1)
        "Same account, same error string, same timeframe"] := by
  have hfmeta : ∀ (c : ProcessedTicketView) (m' : DuplicateMatch),
      metadata_match aid err rat c true true svc.metadata_time_window_hours = some m' →
      m'.candidate_ticket_id = c.ticket_id := by
    intro c m' hm'
    rw [metadata_match_eq_some hm']
  have hid1 : cand.ticket_id ∈ matchIds (dedupPass tid
      (fun c => metadata_match aid err rat c true true svc.metadata_time_window_hours)
      cands []) :=
    dedupPass_id_mem hfmeta cands [] cand hc hne ⟨m1, h1⟩
  have hidp : cand.ticket_id ∈
      matchIds (checkPassMatches svc tid aid err rat txt emb cands) := by
    unfold checkPassMatches
    split
    · exact dedupPass_ids_mono cands _ hid1
    · exact hid1
  have hnd := checkPassMatches_nodup svc tid aid err rat txt emb cands
  obtain ⟨m', hfilter, hmem', hid'⟩ := filter_id_singleton hnd hidp
  have hmem1 : m' ∈ dedupPass tid
      (fun c => metadata_match aid err rat c true true svc.metadata_time_window_hours)
      cands [] := by
    revert hmem'
    unfold checkPassMatches
    split
    · intro hmem'
      rcases dedupPass_mem cands _ m' hmem' with h | ⟨_, hfresh⟩
      · exact h
      · rw [hid'] at hfresh
        exact absurd hid1 hfresh
    · exact id
  have hm'_shape : m' = DuplicateMatch.mk cand.ticket_id .EXACT (some 1)
      "Same account, same error string, same timeframe" := by
    rcases dedupPass_mem cands [] m' hmem1 with h | ⟨⟨c', _, _, hfc⟩, _⟩
    · exact absurd h (List.not_mem_nil m')
    · have hshape := metadata_match_eq_some hfc
      have hcid : c'.ticket_id = cand.ticket_id := by
        rw [← hid', hshape]
      rw [hshape, hcid]
      rfl
  have hfself : ∀ l : List DuplicateMatch,
      (∀ m ∈ l, m.match_type ≠ DuplicateMatchType.KNOWN_INCIDENT) →
      l.filter (fun m => m.candidate_ticket_id == cand.ticket_id &&
        !(m.match_type == DuplicateMatchType.KNOWN_INCIDENT)) =
      l.filter (fun m => m.candidate_ticket_id == cand.ticket_id) := by
    intro l hl
    refine List.filter_congr ?_
    intro m hm
    have hfalse : (m.match_type == DuplicateMatchType.KNOWN_INCIDENT) = false := by
      rw [beq_eq_false_iff_ne]
      exact hl m hm
    rw [hfalse, Bool.not_false, Bool.and_true]
  rcases hh : (incident_match tid aid prod svc.get_active_incident_ids
      svc.link_to_incident).1 with _ | mi
  · rw [check_matches_eq]
    simp only [hh]
    rw [hfself _ (fun m hm => checkPassMatches_not_KI hm), hfilter, hm'_shape]
  · rcases incident_match_spec tid aid prod svc.get_active_incident_ids svc.link_to_incident
      with hspec | ⟨mi', hspec, hKI, _⟩
    · rw [hspec] at hh
      exact Option.noConfusion hh
    · have hmi : mi' = mi := by
        rw [hspec] at hh
        exact Option.some.inj hh
      subst hmi
      rw [check_matches_eq]
      simp only [hh]
      rw [List.filter_append]
      have hfi : [mi'].filter (fun m => m.candidate_ticket_id == cand.ticket_id &&
          !(m.match_type == DuplicateMatchType.KNOWN_INCIDENT)) = [] := by
        simp [hKI]
      rw [hfi, List.append_nil]
      rw [hfself _ (fun m hm => checkPassMatches_not_KI hm), hfilter, hm'_shape]

/-- C7 witness: the amended statement at a concrete run in which `c7Cand` is
matched by both passes (no incident collaborators). -/
theorem C7_metadata_precedence_witness :
    c7Cand ∈ [c7Cand] ∧ c7Cand.ticket_id ≠ "t" ∧
    metadata_match (some "a") (some "err") (some 0) c7Cand true true
      plainSvc.metadata_time_window_hours =
      some (DuplicateMatch.mk "X" .EXACT (some 1)
        "Same account, same error string, same timeframe") ∧
    semantic_match (some [1]) "" c7Cand plainSvc.embedding_fn
      plainSvc.semantic_exact_threshold plainSvc.semantic_likely_threshold =
      some c7SemMatch ∧
    (plainSvc.check "t" (some "a") (some "err") (some 0) "" (some [1]) [c7Cand]
        none).«matches».filter
      (fun m => m.candidate_ticket_id == c7Cand.ticket_id &&
        !(m.match_type == DuplicateMatchType.KNOWN_INCIDENT)) =
      [DuplicateMatch.mk c7Cand.ticket_id .EXACT (some 1)
        "Same account, same error string, same timeframe"] := by
  refine ⟨List.mem_singleton_self _, by decide, meta_c7, sem_one, ?_⟩
  exact C7_metadata_precedence plainSvc "t" (some "a") (some "err") (some 0) "" (some [1])
    [c7Cand] none c7Cand
    (DuplicateMatch.mk "X" .EXACT (some 1) "Same account, same error string, same timeframe")
    c7SemMatch (List.mem_singleton_self _) (by decide) meta_c7 sem_one
